import Mathlib

/-!
Verification of the simulation kernel of the Space-Shooter-Game repository,
shallowly embedded from src/space_shooter.js.

Numbers are modelled over an arbitrary linear ordered field (instantiated at
the rationals for concrete evaluation, at the reals where the square root of
two is needed).  The host square-root function used by the player's diagonal
movement (Math.sqrt) is passed in as an explicit parameter.  JavaScript
objects become immutable records threaded through explicit state passing; the
entity registry (a JS array keyed by ascending numeric id) becomes a list in
ascending-id order; deferred removal becomes an explicit queue of ids.
-/

section Model

variable {α : Type} [LinearOrderedField α]

/-- A two-dimensional point or vector, as used for position / velocity / size. -/
structure Vec2 (α : Type) where
  x : α
  y : α
deriving DecidableEq

/-- The closed set of Body variants of the game (Player, Enemy, projectile). -/
inductive EKind where
  | player
  | enemy
  | projectile
deriving DecidableEq

/-- A Body instance: id, position, velocity, size and health, plus its
variant tag (which in the source is the object's class). -/
structure Entity (α : Type) where
  id : ℕ
  kind : EKind
  position : Vec2 α
  velocity : Vec2 α
  size : Vec2 α
  health : α
deriving DecidableEq

/-- The polled controller state of the player: two axis values accumulated
from the mapped keys and the action_1 button. -/
structure Controller where
  move_x : ℤ
  move_y : ℤ
  action_1 : Bool
deriving DecidableEq

/-- Math.min(Math.max(0, v), hi), the clipping pattern of the source. -/
def clip (hi v : α) : α := min (max 0 v) hi

/-- collisionHandler.checkCollision (source lines 425-432): the literal
four-comparison test with the constant 12, reading only the two positions. -/
def checkCollision (e1 e2 : Entity α) : Bool :=
  decide (e1.position.x < e2.position.x + 12) &&
  decide (e1.position.x + 12 > e2.position.x) &&
  decide (e1.position.y < e2.position.y + 12) &&
  decide (e1.position.y + 12 > e2.position.y)

/-- Modelled from the spec's words for claim C1: overlap of two axis-aligned
bounding boxes with half-extent r per side, centered on positions p and q. -/
def centeredBoxesOverlap (r : α) (p q : Vec2 α) : Bool :=
  decide (p.x - r < q.x + r) && decide (q.x - r < p.x + r) &&
  decide (p.y - r < q.y + r) && decide (q.y - r < p.y + r)

/-- One diagonal movement branch of Player.update: velocity components set to
sqrt(speed^2 + speed^2) times the axis sign, position moved by half of each,
then both velocity components zeroed. -/
def diagMove (sqrtFn : α → α) (mx my : ℤ) (e : Entity α) : Entity α :=
  let vx : α := sqrtFn (7 ^ 2 + 7 ^ 2) * (mx : α)
  let vy : α := sqrtFn (7 ^ 2 + 7 ^ 2) * (my : α)
  { e with position := ⟨e.position.x + vx / 2, e.position.y + vy / 2⟩,
           velocity := ⟨0, 0⟩ }

/-- The movement branch cascade of Player.update (source lines 238-285):
move_y == 0 first (horizontal, also the no-op 0/0 case), then move_x == 0
(vertical), then the four diagonal sign combinations. -/
def playerMove (sqrtFn : α → α) (mx my : ℤ) (e : Entity α) : Entity α :=
  if my = 0 then
    let vx : α := 7 * (mx : α)
    { e with position := { e.position with x := e.position.x + vx },
             velocity := { e.velocity with x := 0 } }
  else if mx = 0 then
    let vy : α := 7 * (my : α)
    { e with position := { e.position with y := e.position.y + vy },
             velocity := { e.velocity with y := 0 } }
  else if mx = 1 ∧ my = 1 then diagMove sqrtFn mx my e
  else if mx = 1 ∧ my = -1 then diagMove sqrtFn mx my e
  else if mx = -1 ∧ my = 1 then diagMove sqrtFn mx my e
  else if mx = -1 ∧ my = -1 then diagMove sqrtFn mx my e
  else e

/-- One Player.update call (source lines 237-306): movement branches, fire
timer (period 0.3), base Body integration, clip to the canvas.  Returns the
updated entity, the new fire timer, and, when a projectile is fired, its
spawn position (the id-0 player's position at that moment, 25 above). -/
def playerUpdate (sqrtFn : α → α) (ctrl : Controller) (dt : α) (timer : α)
    (e : Entity α) : Entity α × α × Option (Vec2 α) :=
  let e1 := playerMove sqrtFn ctrl.move_x ctrl.move_y e
  let t1 := timer + dt
  let fire : α × Option (Vec2 α) :=
    if t1 ≥ 3 / 10 then
      (0, if ctrl.action_1 = true then some ⟨e1.position.x, e1.position.y - 25⟩ else none)
    else (t1, none)
  let e2 := { e1 with position := ⟨e1.position.x + dt * e1.velocity.x,
                                   e1.position.y + dt * e1.velocity.y⟩ }
  let e3 := { e2 with position := ⟨clip 300 e2.position.x, clip 500 e2.position.y⟩ }
  (e3, fire.1, fire.2)

/-- One Enemy.update call (source lines 364-374): velocity.y set to the fixed
speed 2, position moved down by it, removal queued when the new y exceeds its
clipped value, then base Body integration adds dt times the velocity.
Returns the updated entity and whether remove() was called. -/
def enemyUpdate (dt : α) (e : Entity α) : Entity α × Bool :=
  let e1 := { e with velocity := { e.velocity with y := 2 * 1 } }
  let e2 := { e1 with position := { e1.position with y := e1.position.y + e1.velocity.y } }
  let rem := decide (e2.position.y > clip 500 e2.position.y)
  let e3 := { e2 with position := ⟨e2.position.x + dt * e2.velocity.x,
                                   e2.position.y + dt * e2.velocity.y⟩ }
  (e3, rem)

/-- One projectile.update call (source lines 508-516): velocity.y set to -8,
position moved directly (no base integration call), removal queued when the
new y falls below its clipped value. -/
def projectileUpdate (e : Entity α) : Entity α × Bool :=
  let e1 := { e with velocity := { e.velocity with y := 8 * (-1) } }
  let e2 := { e1 with position := { e1.position with y := e1.position.y + e1.velocity.y } }
  let rem := decide (e2.position.y < clip 500 e2.position.y)
  (e2, rem)

/-- The mutable state touched by one collision sweep: the live registry
(whose id-0 health the sweep may change), the hit counter, and the removal
queue. -/
structure SweepState (α : Type) where
  es : List (Entity α)
  hit : ℕ
  queue : List ℕ
deriving DecidableEq

/-- entity1.health = entity1.health - 50 on the live id-0 player entity
(source line 445). -/
def damagePlayer (es : List (Entity α)) : List (Entity α) :=
  es.map fun e => if e.id = 0 then { e with health := e.health - 50 } else e

/-- Resolution of one ordered pair visit of collisionHandler.update (source
lines 442-456): on collision with distinct ids, the player branch subtracts
50 health and queues entity2; the entity2-is-player branch queues entity1;
the remaining branch bumps the hit counter and queues both. -/
def resolvePair (e1 e2 : Entity α) (st : SweepState α) : SweepState α :=
  if checkCollision e1 e2 = true ∧ e1.id ≠ e2.id then
    if e1.id = 0 then
      { st with es := damagePlayer st.es, queue := st.queue ++ [e2.id] }
    else if e2.id = 0 then
      { st with queue := st.queue ++ [e1.id] }
    else
      { st with hit := st.hit + 1, queue := st.queue ++ [e1.id, e2.id] }
  else st

/-- The inner forEach of collisionHandler.update for a fixed entity1. -/
def innerSweep (snapshot : List (Entity α)) (e1 : Entity α) (st : SweepState α) :
    SweepState α :=
  snapshot.foldl (fun s e2 => resolvePair e1 e2 s) st

/-- collisionHandler.update (source lines 439-459): both forEach loops run
over the same registry snapshot, visiting every ordered pair. -/
def collisionUpdate (snapshot : List (Entity α)) (st : SweepState α) : SweepState α :=
  snapshot.foldl (fun s e1 => innerSweep snapshot e1 s) st

/-- The guard of the pair resolution: collision and distinct ids. -/
def collidePair (e1 e2 : Entity α) : Bool :=
  checkCollision e1 e2 && decide (e1.id ≠ e2.id)

/-- A pair visit that takes the player branch (entity1 is the id-0 player). -/
def playerTrigger (e1 e2 : Entity α) : Bool :=
  collidePair e1 e2 && decide (e1.id = 0)

/-- A pair visit that takes the hit-counter branch (neither id is 0). -/
def hitTrigger (e1 e2 : Entity α) : Bool :=
  collidePair e1 e2 && decide (e1.id ≠ 0) && decide (e2.id ≠ 0)

/-- The ids one pair visit appends to the removal queue. -/
def emitted (e1 e2 : Entity α) : List ℕ :=
  if collidePair e1 e2 = true then
    if e1.id = 0 then [e2.id] else if e2.id = 0 then [e1.id] else [e1.id, e2.id]
  else []

/-- Subtract 50 health k times from an id-0 entity, identity elsewhere. -/
def damageFn (k : ℕ) (e : Entity α) : Entity α :=
  if e.id = 0 then { e with health := e.health - 50 * (k : α) } else e

/-- The registry after k player-branch visits of the sweep. -/
def damageBy (k : ℕ) (es : List (Entity α)) : List (Entity α) := es.map (damageFn k)

/-- The number of ordered pair visits of one sweep that take the
hit-counter branch. -/
def totalHitCount (snapshot : List (Entity α)) : ℕ :=
  (snapshot.map fun e1 => snapshot.countP fun e2 => hitTrigger e1 e2).sum

/-- The number of ordered pair visits of one sweep that take the player
branch. -/
def playerHitCount (snapshot : List (Entity α)) : ℕ :=
  (snapshot.map fun e1 => snapshot.countP fun e2 => playerTrigger e1 e2).sum

/-- The number of ordered pair visits taking the hit-counter branch whose two
ids are a and b (in either order). -/
def visitsOn (snapshot : List (Entity α)) (a b : ℕ) : ℕ :=
  (snapshot.map fun e1 =>
    snapshot.countP fun e2 =>
      hitTrigger e1 e2 &&
      ((decide (e1.id = a) && decide (e2.id = b)) ||
       (decide (e1.id = b) && decide (e2.id = a)))).sum

/-- The process-wide session state of the main section of the source:
registry (ascending-id order), removal queue, id counter, the counters, the
player's fire timer (a field of the single Player instance) and the spawner
timer (none models the nulled enemy_spawner). -/
structure World (α : Type) where
  entities : List (Entity α)
  queued : List ℕ
  running_id : ℕ
  hitEnemies : ℕ
  timeElasped : α
  totEnemies : ℕ
  score : ℤ
  playerTimer : α
  spawner : Option α
deriving DecidableEq

/-- A freshly constructed projectile (source lines 467-479): spawned at the
given position with the Body defaults. -/
def mkProjectile (i : ℕ) (pos : Vec2 α) : Entity α :=
  { id := i, kind := .projectile, position := pos, velocity := ⟨0, 0⟩,
    size := ⟨10, 10⟩, health := 100 }

/-- A freshly constructed Enemy (source lines 320-327): x is width times
Math.random(), y is height - 500 = 0, Body defaults otherwise. -/
def mkEnemy (i : ℕ) (rand : α) : Entity α :=
  { id := i, kind := .enemy, position := ⟨300 * rand, 500 - 500⟩, velocity := ⟨0, 0⟩,
    size := ⟨10, 10⟩, health := 100 }

/-- The freshly constructed Player of start() (source lines 186-200): id 0,
centered horizontally, 100 above the bottom, Body defaults otherwise. -/
def playerInit : Entity α :=
  { id := 0, kind := .player, position := ⟨300 / 2, 500 - 100⟩, velocity := ⟨0, 0⟩,
    size := ⟨10, 10⟩, health := 100 }

/-- Accumulator for the per-entity update loop: entities already updated (in
registry order), the removal queue, the id counter, the player's fire timer,
and entities spawned during the loop (appended to the registry at ids past
every snapshot id, hence after them in ascending-id order). -/
structure MoveAcc (α : Type) where
  done : List (Entity α)
  queued : List ℕ
  rid : ℕ
  ptimer : α
  spawned : List (Entity α)
deriving DecidableEq

/-- One entity's update inside the per-entity loop of update() (source lines
619-621), dispatched on the Body variant. -/
def updateEntity (sqrtFn : α → α) (ctrl : Controller) (dt : α)
    (acc : MoveAcc α) (e : Entity α) : MoveAcc α :=
  match e.kind with
  | .player =>
      let r := playerUpdate sqrtFn ctrl dt acc.ptimer e
      match r.2.2 with
      | some pos =>
          { acc with done := acc.done ++ [r.1], ptimer := r.2.1,
                     spawned := acc.spawned ++ [mkProjectile acc.rid pos],
                     rid := acc.rid + 1 }
      | none => { acc with done := acc.done ++ [r.1], ptimer := r.2.1 }
  | .enemy =>
      let r := enemyUpdate dt e
      { acc with done := acc.done ++ [r.1],
                 queued := if r.2 = true then acc.queued ++ [e.id] else acc.queued }
  | .projectile =>
      let r := projectileUpdate e
      { acc with done := acc.done ++ [r.1],
                 queued := if r.2 = true then acc.queued ++ [e.id] else acc.queued }

/-- The per-entity update phase of update(): every entity of the current
snapshot updates once; entities spawned meanwhile join the registry but are
not updated this step. -/
def moveStage (sqrtFn : α → α) (ctrl : Controller) (dt : α) (w : World α) : World α :=
  let acc := w.entities.foldl (updateEntity sqrtFn ctrl dt)
    { done := [], queued := w.queued, rid := w.running_id,
      ptimer := w.playerTimer, spawned := [] }
  { w with entities := acc.done ++ acc.spawned, queued := acc.queued,
           running_id := acc.rid, playerTimer := acc.ptimer }

/-- The collision phase of update() (source lines 624-626). -/
def collideStage (w : World α) : World α :=
  let st := collisionUpdate w.entities ⟨w.entities, w.hitEnemies, w.queued⟩
  { w with entities := st.es, hitEnemies := st.hit, queued := st.queue }

/-- The removal-queue flush of update() (source lines 629-632). -/
def flushStage (w : World α) : World α :=
  { w with entities := w.entities.filter fun e => decide (e.id ∉ w.queued),
           queued := [] }

/-- enemySpawner.update guarded by the null check (source lines 394-403 and
635-637): accumulate the timer, and on reaching 0.7 reset it, construct one
Enemy and bump the total-enemies counter. -/
def spawnStage (rand dt : α) (w : World α) : World α :=
  match w.spawner with
  | none => w
  | some t =>
      let t1 := t + dt
      if t1 ≥ 7 / 10 then
        { w with spawner := some 0,
                 entities := w.entities ++ [mkEnemy w.running_id rand],
                 running_id := w.running_id + 1,
                 totEnemies := w.totEnemies + 1 }
      else { w with spawner := some t1 }

/-- player.isDead() read through the registry: the id-0 entity's health is at
most 0.  After start() the id-0 player always exists, so the none branch is
unreachable in reachable worlds. -/
def isDead0 (es : List (Entity α)) : Bool :=
  match es.find? fun e => decide (e.id = 0) with
  | some p => decide (p.health ≤ 0)
  | none => false

/-- start() (source lines 746-756): fresh registry holding the new id-0
Player, empty queue, id counter advanced to 1 by the Player construction,
counters zeroed, fresh spawner.  The score variable is not assigned here. -/
def start (w : World α) : World α :=
  { entities := [playerInit], queued := [], running_id := 1, hitEnemies := 0,
    timeElasped := 0, totEnemies := 0, score := w.score, playerTimer := 0,
    spawner := some 0 }

/-- The restart condition of update() (source lines 639-642). -/
def restartStage (ctrl : Controller) (w : World α) : World α :=
  if isDead0 w.entities = true ∧ ctrl.action_1 = true then start w else w

/-- The alive-time bookkeeping of update() (source lines 644-647). -/
def timeStage (dt : α) (w : World α) : World α :=
  if isDead0 w.entities = true then w else { w with timeElasped := w.timeElasped + dt }

/-- The score recomputation of update() (source line 650). -/
def scoreStage [FloorRing α] (w : World α) : World α :=
  { w with score := ⌊(30 : α) * ((w.hitEnemies : α) / 2) + w.timeElasped⌋ }

/-- One update(delta_time) call (source lines 614-651), with the polled
controller, the value of Math.random() used by a potential spawn, and the
host square root passed in. -/
def update [FloorRing α] (sqrtFn : α → α) (ctrl : Controller) (rand dt : α)
    (w : World α) : World α :=
  scoreStage (timeStage dt (restartStage ctrl (spawnStage rand dt
    (flushStage (collideStage (moveStage sqrtFn ctrl dt w))))))

/-- The state effect of draw() on the simulation (source lines 673-675): once
the player is dead the spawner reference is nulled. -/
def drawEffect (w : World α) : World α :=
  if isDead0 w.entities = true then { w with spawner := none } else w

end Model

/-- The while loop of loop() (source lines 728-741) on an accumulated elapsed
time d: each iteration calls update and draw once with the fixed step and
consumes 1/60 from the accumulator; returns the number of iterations run and
the remaining accumulated time. -/
def loopSteps (d : ℚ) : ℕ × ℚ :=
  if h : d > 1 / 60 then
    let p := loopSteps (d - 1 / 60)
    (p.1 + 1, p.2)
  else (0, d)
termination_by (⌈d * 60⌉).toNat
decreasing_by
  have h60 : (1 : ℚ) < d * 60 := by linarith
  have hsub : (d - 1 / 60) * 60 = d * 60 - 1 := by ring
  have hc : ⌈(d - 1 / 60) * 60⌉ = ⌈d * 60⌉ - 1 := by
    rw [hsub, Int.ceil_sub_one]
  have h1 : (1 : ℤ) < ⌈d * 60⌉ := by
    rw [Int.lt_ceil]
    exact_mod_cast h60
  rw [hc]
  omega

section SweepLemmas

variable {α : Type} [LinearOrderedField α]

lemma collidePair_iff (e1 e2 : Entity α) :
    collidePair e1 e2 = true ↔ checkCollision e1 e2 = true ∧ e1.id ≠ e2.id := by
  simp [collidePair]

lemma hitTrigger_iff (e1 e2 : Entity α) :
    hitTrigger e1 e2 = true ↔
      checkCollision e1 e2 = true ∧ e1.id ≠ e2.id ∧ e1.id ≠ 0 ∧ e2.id ≠ 0 := by
  simp [hitTrigger, collidePair, and_assoc]

lemma playerTrigger_iff (e1 e2 : Entity α) :
    playerTrigger e1 e2 = true ↔
      checkCollision e1 e2 = true ∧ e1.id ≠ e2.id ∧ e1.id = 0 := by
  simp [playerTrigger, collidePair, and_assoc]

lemma collidePair_false (e1 e2 : Entity α)
    (h : ¬(checkCollision e1 e2 = true ∧ e1.id ≠ e2.id)) : collidePair e1 e2 = false := by
  rw [Bool.eq_false_iff]
  intro hc
  exact h ((collidePair_iff e1 e2).mp hc)

lemma resolvePair_hit (e1 e2 : Entity α) (st : SweepState α) :
    (resolvePair e1 e2 st).hit = st.hit + (if hitTrigger e1 e2 = true then 1 else 0) := by
  by_cases h1 : checkCollision e1 e2 = true ∧ e1.id ≠ e2.id
  · obtain ⟨hc, hne⟩ := h1
    by_cases h2 : e1.id = 0
    · have h4 : ¬(0 = e2.id) := by omega
      simp [resolvePair, hitTrigger, collidePair, hc, hne, h2, h4]
    · by_cases h3 : e2.id = 0
      · simp [resolvePair, hitTrigger, collidePair, hc, hne, h2, h3]
      · simp [resolvePair, hitTrigger, collidePair, hc, hne, h2, h3]
  · rw [resolvePair, if_neg h1]
    simp [hitTrigger, collidePair_false e1 e2 h1]

lemma resolvePair_queue (e1 e2 : Entity α) (st : SweepState α) :
    (resolvePair e1 e2 st).queue = st.queue ++ emitted e1 e2 := by
  by_cases h1 : checkCollision e1 e2 = true ∧ e1.id ≠ e2.id
  · obtain ⟨hc, hne⟩ := h1
    by_cases h2 : e1.id = 0
    · have h4 : ¬(0 = e2.id) := by omega
      simp [resolvePair, emitted, collidePair, hc, hne, h2, h4]
    · by_cases h3 : e2.id = 0
      · simp [resolvePair, emitted, collidePair, hc, hne, h2, h3]
      · simp [resolvePair, emitted, collidePair, hc, hne, h2, h3]
  · rw [resolvePair, if_neg h1]
    simp [emitted, collidePair_false e1 e2 h1]

lemma resolvePair_es (e1 e2 : Entity α) (st : SweepState α) :
    (resolvePair e1 e2 st).es =
      if playerTrigger e1 e2 = true then damagePlayer st.es else st.es := by
  by_cases h1 : checkCollision e1 e2 = true ∧ e1.id ≠ e2.id
  · obtain ⟨hc, hne⟩ := h1
    by_cases h2 : e1.id = 0
    · have h4 : ¬(0 = e2.id) := by omega
      simp [resolvePair, playerTrigger, collidePair, hc, hne, h2, h4]
    · by_cases h3 : e2.id = 0
      · simp [resolvePair, playerTrigger, collidePair, hc, hne, h2, h3]
      · simp [resolvePair, playerTrigger, collidePair, hc, hne, h2, h3]
  · rw [resolvePair, if_neg h1]
    simp [playerTrigger, collidePair_false e1 e2 h1]

lemma damageFn_comp (j k : ℕ) (e : Entity α) :
    damageFn j (damageFn k e) = damageFn (j + k) e := by
  unfold damageFn
  by_cases h : e.id = 0
  · simp only [h, if_pos]
    congr 1
    push_cast
    ring
  · simp only [h, if_neg, ite_false]

lemma damagePlayer_eq (es : List (Entity α)) : damagePlayer es = damageBy 1 es := by
  unfold damagePlayer damageBy damageFn
  apply List.map_congr_left
  intro e _
  by_cases h : e.id = 0
  · rw [if_pos h, if_pos h]
    congr 1
    push_cast
    ring
  · rw [if_neg h, if_neg h]

lemma damageBy_damageBy (j k : ℕ) (es : List (Entity α)) :
    damageBy j (damageBy k es) = damageBy (j + k) es := by
  unfold damageBy
  rw [List.map_map]
  apply List.map_congr_left
  intro e _
  exact damageFn_comp j k e

lemma damageBy_zero (es : List (Entity α)) : damageBy 0 es = es := by
  unfold damageBy damageFn
  apply List.map_id''
  intro e
  by_cases h : e.id = 0
  · rw [if_pos h]
    have hh : e.health - 50 * ((0 : ℕ) : α) = e.health := by push_cast; ring
    rw [hh]
  · rw [if_neg h]

lemma innerSweep_hit (e1 : Entity α) (l : List (Entity α)) (st : SweepState α) :
    (innerSweep l e1 st).hit = st.hit + l.countP (fun e2 => hitTrigger e1 e2) := by
  induction l generalizing st with
  | nil => simp [innerSweep]
  | cons a t ih =>
      simp only [innerSweep, List.foldl_cons] at ih ⊢
      rw [ih, resolvePair_hit, List.countP_cons]
      by_cases h : hitTrigger e1 a = true
      · simp [h]
        omega
      · simp [h]

lemma innerSweep_queue (e1 : Entity α) (l : List (Entity α)) (st : SweepState α) :
    (innerSweep l e1 st).queue = st.queue ++ (l.map fun e2 => emitted e1 e2).flatten := by
  induction l generalizing st with
  | nil => simp [innerSweep]
  | cons a t ih =>
      simp only [innerSweep, List.foldl_cons] at ih ⊢
      rw [ih, resolvePair_queue, List.map_cons, List.flatten_cons, List.append_assoc]

lemma innerSweep_es (e1 : Entity α) (l : List (Entity α)) (st : SweepState α) :
    (innerSweep l e1 st).es = damageBy (l.countP fun e2 => playerTrigger e1 e2) st.es := by
  induction l generalizing st with
  | nil => simp [innerSweep, damageBy_zero]
  | cons a t ih =>
      simp only [innerSweep, List.foldl_cons] at ih ⊢
      rw [ih, resolvePair_es, List.countP_cons]
      by_cases h : playerTrigger e1 a = true
      · simp only [h, if_true, if_pos, damagePlayer_eq, damageBy_damageBy]
      · simp [h]

lemma collisionUpdate_hit (snap : List (Entity α)) (st : SweepState α) :
    (collisionUpdate snap st).hit = st.hit + totalHitCount snap := by
  have gen : ∀ (l : List (Entity α)) (st : SweepState α),
      (l.foldl (fun s e1 => innerSweep snap e1 s) st).hit
        = st.hit + (l.map fun e1 => snap.countP fun e2 => hitTrigger e1 e2).sum := by
    intro l
    induction l with
    | nil => intro st; simp
    | cons a t ih =>
        intro st
        simp only [List.foldl_cons, List.map_cons, List.sum_cons]
        rw [ih, innerSweep_hit]
        omega
  simpa [collisionUpdate, totalHitCount] using gen snap st

/-- All ids one whole sweep appends to the removal queue. -/
def sweepEmitted (snap : List (Entity α)) : List ℕ :=
  (snap.map fun e1 => (snap.map fun e2 => emitted e1 e2).flatten).flatten

lemma collisionUpdate_queue (snap : List (Entity α)) (st : SweepState α) :
    (collisionUpdate snap st).queue = st.queue ++ sweepEmitted snap := by
  have gen : ∀ (l : List (Entity α)) (st : SweepState α),
      (l.foldl (fun s e1 => innerSweep snap e1 s) st).queue
        = st.queue ++ (l.map fun e1 => (snap.map fun e2 => emitted e1 e2).flatten).flatten := by
    intro l
    induction l with
    | nil => intro st; simp
    | cons a t ih =>
        intro st
        simp only [List.foldl_cons, List.map_cons, List.flatten_cons]
        rw [ih, innerSweep_queue, List.append_assoc]
  simpa [collisionUpdate, sweepEmitted] using gen snap st

lemma collisionUpdate_es (snap : List (Entity α)) (st : SweepState α) :
    (collisionUpdate snap st).es = damageBy (playerHitCount snap) st.es := by
  have gen : ∀ (l : List (Entity α)) (st : SweepState α),
      (l.foldl (fun s e1 => innerSweep snap e1 s) st).es
        = damageBy ((l.map fun e1 => snap.countP fun e2 => playerTrigger e1 e2).sum) st.es := by
    intro l
    induction l with
    | nil => intro st; simp [damageBy_zero]
    | cons a t ih =>
        intro st
        simp only [List.foldl_cons, List.map_cons, List.sum_cons]
        rw [ih, innerSweep_es, damageBy_damageBy, Nat.add_comm]
  simpa [collisionUpdate, playerHitCount] using gen snap st

lemma zero_not_mem_emitted (e1 e2 : Entity α) : 0 ∉ emitted e1 e2 := by
  unfold emitted
  by_cases h1 : collidePair e1 e2 = true
  · obtain ⟨hc, hne⟩ := (collidePair_iff e1 e2).mp h1
    by_cases h2 : e1.id = 0
    · simp only [h1, if_pos, h2, if_true]
      intro hmem
      rw [List.mem_singleton] at hmem
      exact hne (by omega)
    · by_cases h3 : e2.id = 0
      · simp only [h1, if_pos, h2, if_false, h3, if_true, ite_false, ite_true]
        intro hmem
        rw [List.mem_singleton] at hmem
        exact h2 hmem.symm
      · simp only [h1, if_pos, h2, h3, ite_false]
        intro hmem
        rcases List.mem_cons.mp hmem with h | h
        · exact h2 h.symm
        · rw [List.mem_singleton] at h
          exact h3 h.symm
  · simp [h1]

lemma zero_not_mem_sweepEmitted (snap : List (Entity α)) : 0 ∉ sweepEmitted snap := by
  unfold sweepEmitted
  intro hmem
  rw [List.mem_flatten] at hmem
  obtain ⟨l1, hl1, hmem1⟩ := hmem
  rw [List.mem_map] at hl1
  obtain ⟨e1, _, rfl⟩ := hl1
  rw [List.mem_flatten] at hmem1
  obtain ⟨l2, hl2, hmem2⟩ := hmem1
  rw [List.mem_map] at hl2
  obtain ⟨e2, _, rfl⟩ := hl2
  exact zero_not_mem_emitted e1 e2 hmem2

end SweepLemmas

section CountLemmas

variable {α : Type} [LinearOrderedField α]

lemma countP_eq_one_of_unique {β : Type} (p : β → Bool) (x : β) (l : List β)
    (hnd : l.Nodup) (hx : x ∈ l) (hp : ∀ y ∈ l, p y = true ↔ y = x) :
    l.countP p = 1 := by
  induction l with
  | nil => exact absurd hx (List.not_mem_nil x)
  | cons a t ih =>
      rcases List.mem_cons.mp hx with heq | hxt
      · have hpa : p a = true := (hp a (List.mem_cons_self a t)).mpr heq.symm
        rw [List.countP_cons_of_pos _ _ hpa]
        have ht : t.countP p = 0 := by
          rw [List.countP_eq_zero]
          intro b hb hpb
          have hbx : b = x := (hp b (List.mem_cons_of_mem a hb)).mp hpb
          rw [hbx, heq] at hb
          exact (List.nodup_cons.mp hnd).1 hb
        omega
      · have hpa : ¬(p a = true) := by
          intro hc
          have hax : a = x := (hp a (List.mem_cons_self a t)).mp hc
          exact (List.nodup_cons.mp hnd).1 (by rw [hax]; exact hxt)
        rw [List.countP_cons_of_neg _ _ hpa]
        exact ih (List.nodup_cons.mp hnd).2 hxt fun y hy => hp y (List.mem_cons_of_mem a hy)

lemma sum_map_ite_countP {β : Type} (p : β → Bool) (l : List β) :
    (l.map fun y => if p y = true then 1 else 0).sum = l.countP p := by
  induction l with
  | nil => rfl
  | cons a t ih =>
      rw [List.map_cons, List.sum_cons, ih, List.countP_cons]
      omega

lemma sum_map_add_split {β : Type} (f g : β → ℕ) (l : List β) :
    (l.map fun y => f y + g y).sum = (l.map f).sum + (l.map g).sum := by
  induction l with
  | nil => rfl
  | cons a t ih =>
      simp only [List.map_cons, List.sum_cons, ih]
      omega

lemma sum_if_two {β : Type} [DecidableEq β] (l : List β) (A B : β) (hnd : l.Nodup)
    (hA : A ∈ l) (hB : B ∈ l) (hAB : A ≠ B) :
    (l.map fun y => if y = A then 1 else if y = B then 1 else 0).sum = 2 := by
  have hpt : ∀ y ∈ l, (if y = A then 1 else if y = B then 1 else 0)
      = ((if decide (y = A) = true then 1 else 0) + (if decide (y = B) = true then 1 else 0) : ℕ) := by
    intro y _
    by_cases h1 : y = A
    · subst h1
      have h2 : y ≠ B := hAB
      simp [h2]
    · by_cases h2 : y = B
      · subst h2
        simp [h1]
      · simp [h1, h2]
  rw [List.map_congr_left hpt, sum_map_add_split, sum_map_ite_countP, sum_map_ite_countP]
  have cA : l.countP (fun y => decide (y = A)) = 1 :=
    countP_eq_one_of_unique _ A l hnd hA fun y _ => by simp
  have cB : l.countP (fun y => decide (y = B)) = 1 :=
    countP_eq_one_of_unique _ B l hnd hB fun y _ => by simp
  omega

lemma checkCollision_symm (e1 e2 : Entity α) (h : checkCollision e1 e2 = true) :
    checkCollision e2 e1 = true := by
  simp only [checkCollision, Bool.and_eq_true, decide_eq_true_eq, gt_iff_lt] at h ⊢
  obtain ⟨⟨⟨h1, h2⟩, h3⟩, h4⟩ := h
  exact ⟨⟨⟨h2, h1⟩, h4⟩, h3⟩

lemma visitsOn_two (snap : List (Entity α)) (A B : Entity α)
    (hnd : (snap.map Entity.id).Nodup) (hA : A ∈ snap) (hB : B ∈ snap)
    (hid : A.id ≠ B.id) (h0A : A.id ≠ 0) (h0B : B.id ≠ 0)
    (hcoll : checkCollision A B = true) :
    visitsOn snap A.id B.id = 2 := by
  have hinj : ∀ x ∈ snap, ∀ y ∈ snap, x.id = y.id → x = y := fun x hx y hy h =>
    List.inj_on_of_nodup_map hnd hx hy h
  have hndl : snap.Nodup := List.Nodup.of_map _ hnd
  have hAB : A ≠ B := fun h => hid (h ▸ rfl)
  have htAB : hitTrigger A B = true := (hitTrigger_iff A B).mpr ⟨hcoll, hid, h0A, h0B⟩
  have htBA : hitTrigger B A = true := (hitTrigger_iff B A).mpr
    ⟨checkCollision_symm A B hcoll, fun h => hid h.symm, h0B, h0A⟩
  unfold visitsOn
  have hpt : ∀ e1 ∈ snap,
      (snap.countP fun e2 => hitTrigger e1 e2 &&
        ((decide (e1.id = A.id) && decide (e2.id = B.id)) ||
         (decide (e1.id = B.id) && decide (e2.id = A.id))))
      = (if e1 = A then 1 else if e1 = B then 1 else 0) := by
    intro e1 he1
    by_cases h1 : e1 = A
    · subst h1
      rw [if_pos rfl]
      apply countP_eq_one_of_unique _ B snap hndl hB
      intro y hy
      simp only [Bool.and_eq_true, Bool.or_eq_true, decide_eq_true_eq]
      constructor
      · rintro ⟨hty, ⟨_, hyB⟩ | ⟨hAB2, _⟩⟩
        · exact hinj y hy B hB hyB
        · exact absurd hAB2 hid
      · rintro rfl
        refine ⟨htAB, Or.inl ⟨?_, ?_⟩⟩ <;> trivial
    · by_cases h2 : e1 = B
      · subst h2
        rw [if_neg h1, if_pos rfl]
        apply countP_eq_one_of_unique _ A snap hndl hA
        intro y hy
        simp only [Bool.and_eq_true, Bool.or_eq_true, decide_eq_true_eq]
        constructor
        · rintro ⟨hty, ⟨hBA2, _⟩ | ⟨_, hyA⟩⟩
          · exact absurd hBA2 fun h => hid h.symm
          · exact hinj y hy A hA hyA
        · rintro rfl
          refine ⟨htBA, Or.inr ⟨?_, ?_⟩⟩ <;> trivial
      · rw [if_neg h1, if_neg h2, List.countP_eq_zero]
        intro y hy hpy
        simp only [Bool.and_eq_true, Bool.or_eq_true, decide_eq_true_eq] at hpy
        rcases hpy with ⟨_, ⟨h1A, _⟩ | ⟨h1B, _⟩⟩
        · exact h1 (hinj e1 he1 A hA h1A)
        · exact h2 (hinj e1 he1 B hB h1B)
  rw [List.map_congr_left hpt]
  exact sum_if_two snap A B hndl hA hB hAB

lemma mem_queue_of_hitTrigger (snap : List (Entity α)) (st : SweepState α)
    (A B : Entity α) (hA : A ∈ snap) (hB : B ∈ snap) (ht : hitTrigger A B = true) :
    A.id ∈ (collisionUpdate snap st).queue ∧ B.id ∈ (collisionUpdate snap st).queue := by
  obtain ⟨hc, hne, h0A, h0B⟩ := (hitTrigger_iff A B).mp ht
  have hem : emitted A B = [A.id, B.id] := by
    unfold emitted
    rw [if_pos ((collidePair_iff A B).mpr ⟨hc, hne⟩), if_neg h0A, if_neg h0B]
  rw [collisionUpdate_queue]
  have hmA : A.id ∈ sweepEmitted snap := by
    unfold sweepEmitted
    refine List.mem_flatten.mpr ⟨_, List.mem_map_of_mem _ hA,
      List.mem_flatten.mpr ⟨_, List.mem_map_of_mem _ hB, ?_⟩⟩
    rw [hem]
    exact List.mem_cons_self _ _
  have hmB : B.id ∈ sweepEmitted snap := by
    unfold sweepEmitted
    refine List.mem_flatten.mpr ⟨_, List.mem_map_of_mem _ hA,
      List.mem_flatten.mpr ⟨_, List.mem_map_of_mem _ hB, ?_⟩⟩
    rw [hem]
    exact List.mem_cons_of_mem _ (List.mem_cons_self _ _)
  exact ⟨List.mem_append_right _ hmA, List.mem_append_right _ hmB⟩

lemma gt_clip500_iff (v : α) : v > clip 500 v ↔ v > 500 := by
  unfold clip
  rw [gt_iff_lt, min_lt_iff, max_lt_iff]
  constructor
  · rintro (⟨_, h2⟩ | h)
    · exact absurd h2 (lt_irrefl v)
    · exact h
  · intro h
    exact Or.inr h

end CountLemmas

section ClaimsOne

variable {α : Type} [LinearOrderedField α]

/-- Concrete enemy at the origin, used as a test input. -/
def entA : Entity ℚ := ⟨1, EKind.enemy, ⟨0, 0⟩, ⟨0, 0⟩, ⟨10, 10⟩, 100⟩

/-- Concrete projectile overlapping entA. -/
def entB : Entity ℚ := ⟨2, EKind.projectile, ⟨5, 5⟩, ⟨0, 0⟩, ⟨10, 10⟩, 100⟩

/-- Concrete enemy 15 units to the right of entA, not overlapping it under
the code's test. -/
def entC : Entity ℚ := ⟨3, EKind.enemy, ⟨15, 0⟩, ⟨0, 0⟩, ⟨10, 10⟩, 100⟩

/-- Concrete sweep state over the pair entA, entB. -/
def stAB : SweepState ℚ := ⟨[entA, entB], 0, []⟩

unseal Rat.add Rat.mul Rat.sub Rat.inv in
/-- C1 counterexample: at positions (0,0) and (15,0) the two axis-aligned
boxes of half-extent 12 centered on the positions overlap (the gap is 15 <
24), yet checkCollision reports no collision, refuting the claimed
equivalence with centered half-extent-12 boxes. -/
theorem c1_counterexample :
    centeredBoxesOverlap (12 : ℚ) entA.position entC.position = true ∧
    checkCollision entA entC = false := by decide

/-- C1 (amended): the collision test reports a collision exactly when the two
positions differ by strictly less than 12 units on both axes - equivalently,
when axis-aligned boxes of half-extent 6 (not 12) centered on the two
positions overlap - and the test ignores both entities' configured sizes
entirely. -/
theorem c1_collision_test (e1 e2 : Entity α) (s1 s2 : Vec2 α) :
    (checkCollision e1 e2 = true ↔
      |e1.position.x - e2.position.x| < 12 ∧ |e1.position.y - e2.position.y| < 12) ∧
    checkCollision e1 e2 = centeredBoxesOverlap 6 e1.position e2.position ∧
    checkCollision { e1 with size := s1 } { e2 with size := s2 } = checkCollision e1 e2 := by
  refine ⟨?_, ?_, rfl⟩
  · simp only [checkCollision, Bool.and_eq_true, decide_eq_true_eq, gt_iff_lt, abs_sub_lt_iff]
    constructor
    · rintro ⟨⟨⟨h1, h2⟩, h3⟩, h4⟩
      exact ⟨⟨by linarith, by linarith⟩, by linarith, by linarith⟩
    · rintro ⟨⟨h1, h2⟩, h3, h4⟩
      exact ⟨⟨⟨by linarith, by linarith⟩, by linarith⟩, by linarith⟩
  · unfold checkCollision centeredBoxesOverlap
    have a1 : decide (e1.position.x < e2.position.x + 12)
        = decide (e1.position.x - 6 < e2.position.x + 6) :=
      decide_eq_decide.mpr (by constructor <;> intro h <;> linarith)
    have a2 : decide (e1.position.x + 12 > e2.position.x)
        = decide (e2.position.x - 6 < e1.position.x + 6) :=
      decide_eq_decide.mpr (by constructor <;> intro h <;> linarith)
    have a3 : decide (e1.position.y < e2.position.y + 12)
        = decide (e1.position.y - 6 < e2.position.y + 6) :=
      decide_eq_decide.mpr (by constructor <;> intro h <;> linarith)
    have a4 : decide (e1.position.y + 12 > e2.position.y)
        = decide (e2.position.y - 6 < e1.position.y + 6) :=
      decide_eq_decide.mpr (by constructor <;> intro h <;> linarith)
    rw [a1, a2, a3, a4]

/-- C3: for a physically overlapping pair of distinct entities A and B in the
registry snapshot, neither of which has id 0, one collision sweep increases
the hit counter by the total number of hit-branch visits, of which exactly 2
(one per ordering) belong to this pair, and queues both ids for removal. -/
theorem c3_nonplayer_pair (snap : List (Entity α)) (st : SweepState α)
    (A B : Entity α) (hnd : (snap.map Entity.id).Nodup) (hA : A ∈ snap) (hB : B ∈ snap)
    (hid : A.id ≠ B.id) (h0A : A.id ≠ 0) (h0B : B.id ≠ 0)
    (hcoll : checkCollision A B = true) :
    (collisionUpdate snap st).hit = st.hit + totalHitCount snap ∧
    visitsOn snap A.id B.id = 2 ∧
    A.id ∈ (collisionUpdate snap st).queue ∧ B.id ∈ (collisionUpdate snap st).queue := by
  have ht : hitTrigger A B = true := (hitTrigger_iff A B).mpr ⟨hcoll, hid, h0A, h0B⟩
  have hq := mem_queue_of_hitTrigger snap st A B hA hB ht
  exact ⟨collisionUpdate_hit snap st,
    visitsOn_two snap A B hnd hA hB hid h0A h0B hcoll, hq.1, hq.2⟩

unseal Rat.add Rat.mul Rat.sub Rat.inv in
/-- C3 witness at the concrete overlapping enemy/projectile pair entA, entB. -/
theorem c3_witness :
    (collisionUpdate [entA, entB] stAB).hit = stAB.hit + totalHitCount [entA, entB] ∧
    visitsOn [entA, entB] entA.id entB.id = 2 ∧
    entA.id ∈ (collisionUpdate [entA, entB] stAB).queue ∧
    entB.id ∈ (collisionUpdate [entA, entB] stAB).queue :=
  c3_nonplayer_pair [entA, entB] stAB entA entB (by decide) (by decide) (by decide)
    (by decide) (by decide) (by decide) (by decide)

/-- Concrete enemy at y = 100 used against claim C4. -/
def enC4 : Entity ℚ := ⟨1, EKind.enemy, ⟨100, 100⟩, ⟨0, 0⟩, ⟨10, 10⟩, 100⟩

unseal Rat.add Rat.mul Rat.sub Rat.inv in
/-- C4 counterexample: at the fixed step 1/60, an enemy at y = 100 does not
move to y = 102; the direct displacement of 2 is followed by the base
integration adding a further 2·dt, giving 102 + 1/30. -/
theorem c4_counterexample :
    (enemyUpdate (1/60 : ℚ) enC4).1.position.y ≠ 100 + 2 := by decide

/-- C4 (amended): each Enemy.update increases position.y by exactly
2 + 2·delta_time (the direct displacement of 2 followed by the base
integration adding 2·delta_time), sets velocity.y to the fixed speed 2, and
queues the enemy for removal exactly when its y at the time of the check
(after the direct displacement) exceeds the canvas height 500. -/
theorem c4_enemy_step (dt : α) (e : Entity α) :
    (enemyUpdate dt e).1.position.y = e.position.y + 2 + 2 * dt ∧
    (enemyUpdate dt e).1.velocity.y = 2 ∧
    ((enemyUpdate dt e).2 = true ↔ e.position.y + 2 > 500) := by
  refine ⟨?_, ?_, ?_⟩
  · show e.position.y + 2 * 1 + dt * (2 * 1) = e.position.y + 2 + 2 * dt
    ring
  · show (2 : α) * 1 = 2
    ring
  · show decide (e.position.y + 2 * 1 > clip 500 (e.position.y + 2 * 1)) = true ↔ _
    rw [decide_eq_true_eq, gt_clip500_iff, mul_one]

/-- Evaluation of the loop accounting at an accumulated time of 0.05 s. -/
lemma loopSteps_eval : loopSteps (1/20) = (2, 1/60) := by
  have h2 : loopSteps (1/60) = (0, 1/60) := by
    rw [loopSteps, dif_neg (by norm_num)]
  have h1 : loopSteps (1/30) = (1, 1/60) := by
    rw [loopSteps, dif_pos (by norm_num : (1:ℚ)/30 > 1/60)]
    have hd : (1:ℚ)/30 - 1/60 = 1/60 := by norm_num
    rw [hd, h2]
  rw [loopSteps, dif_pos (by norm_num : (1:ℚ)/20 > 1/60)]
  have hd : (1:ℚ)/20 - 1/60 = 1/30 := by norm_num
  rw [hd, h1]

/-- C8 counterexample: with accumulated time 0.05 s and fixed step 1/60 s the
while loop runs exactly 2 update steps, but the remaining accumulated time is
exactly one fixed step (0.05 = 3/60), not strictly less than one step. -/
theorem c8_counterexample :
    (loopSteps (1/20)).1 = 2 ∧ ¬((loopSteps (1/20)).2 < 1/60) := by
  rw [loopSteps_eval]
  norm_num

/-- C8 (amended): a callback with accumulated time exactly 0.05 s and fixed
step 1/60 s runs exactly 2 simulation steps and leaves a remainder of exactly
one fixed step, which the strict greater-than loop condition refuses to
consume. -/
theorem c8_loop_steps : loopSteps (1/20) = (2, 1/60) := loopSteps_eval

/-- C10: one collision sweep maps the registry through damageFn (which
changes only the id-0 entity's health and preserves id, kind, position,
velocity, size and every non-id-0 health), keeps the registry length, and
only appends to the removal queue. -/
theorem c10_frame (snap : List (Entity α)) (st : SweepState α) :
    (collisionUpdate snap st).es = damageBy (playerHitCount snap) st.es ∧
    (collisionUpdate snap st).es.length = st.es.length ∧
    (∀ k : ℕ, ∀ e : Entity α,
      (damageFn k e).id = e.id ∧ (damageFn k e).kind = e.kind ∧
      (damageFn k e).position = e.position ∧ (damageFn k e).velocity = e.velocity ∧
      (damageFn k e).size = e.size ∧ (e.id ≠ 0 → (damageFn k e).health = e.health)) ∧
    (∃ q, (collisionUpdate snap st).queue = st.queue ++ q) := by
  refine ⟨collisionUpdate_es snap st, ?_, ?_, ⟨sweepEmitted snap, collisionUpdate_queue snap st⟩⟩
  · rw [collisionUpdate_es snap st]
    exact List.length_map st.es _
  · intro k e
    unfold damageFn
    by_cases h : e.id = 0
    · rw [if_pos h]
      exact ⟨rfl, rfl, rfl, rfl, rfl, fun hne => absurd h hne⟩
    · rw [if_neg h]
      exact ⟨rfl, rfl, rfl, rfl, rfl, fun _ => rfl⟩

unseal Rat.add Rat.mul Rat.sub Rat.inv in
/-- C10 witness at the concrete pair entA, entB. -/
theorem c10_witness :
    (collisionUpdate [entA, entB] stAB).es = damageBy (playerHitCount [entA, entB]) stAB.es ∧
    (damageFn 3 entA).health = entA.health :=
  ⟨(c10_frame [entA, entB] stAB).1,
   ((c10_frame [entA, entB] stAB).2.2.1 3 entA).2.2.2.2.2 (by decide)⟩

end ClaimsOne


section MoveLemmas

variable {α : Type} [LinearOrderedField α]

/-- The entity written back by one per-entity loop iteration, by variant (the
player's written-back entity does not depend on the fire timer). -/
def entityStep (sqrtFn : α → α) (ctrl : Controller) (dt : α) (e : Entity α) : Entity α :=
  match e.kind with
  | .player => (playerUpdate sqrtFn ctrl dt 0 e).1
  | .enemy => (enemyUpdate dt e).1
  | .projectile => (projectileUpdate e).1

lemma playerUpdate_fst_timer (sqrtFn : α → α) (ctrl : Controller) (dt t : α) (e : Entity α) :
    (playerUpdate sqrtFn ctrl dt t e).1 = (playerUpdate sqrtFn ctrl dt 0 e).1 := rfl

lemma playerMove_aux (sqrtFn : α → α) (mx my : ℤ) (e : Entity α) :
    (playerMove sqrtFn mx my e).id = e.id ∧ (playerMove sqrtFn mx my e).kind = e.kind ∧
    (playerMove sqrtFn mx my e).health = e.health := by
  unfold playerMove diagMove
  split_ifs <;> exact ⟨rfl, rfl, rfl⟩

lemma entityStep_aux (sqrtFn : α → α) (ctrl : Controller) (dt : α) (e : Entity α) :
    (entityStep sqrtFn ctrl dt e).id = e.id ∧ (entityStep sqrtFn ctrl dt e).kind = e.kind ∧
    (entityStep sqrtFn ctrl dt e).health = e.health := by
  obtain ⟨i, k, pos, vel, sz, hp⟩ := e
  cases k
  case player =>
    have hm := playerMove_aux sqrtFn ctrl.move_x ctrl.move_y
      ⟨i, EKind.player, pos, vel, sz, hp⟩
    exact ⟨hm.1, hm.2.1, hm.2.2⟩
  case enemy => exact ⟨rfl, rfl, rfl⟩
  case projectile => exact ⟨rfl, rfl, rfl⟩

lemma updateEntity_spec (sqrtFn : α → α) (ctrl : Controller) (dt : α)
    (acc : MoveAcc α) (e : Entity α) :
    (updateEntity sqrtFn ctrl dt acc e).done = acc.done ++ [entityStep sqrtFn ctrl dt e]
    ∧ acc.rid ≤ (updateEntity sqrtFn ctrl dt acc e).rid
    ∧ (∀ s ∈ (updateEntity sqrtFn ctrl dt acc e).spawned,
        s ∈ acc.spawned ∨ (acc.rid ≤ s.id ∧ s.kind = EKind.projectile))
    ∧ (∀ i ∈ (updateEntity sqrtFn ctrl dt acc e).queued,
        i ∈ acc.queued ∨ (i = e.id ∧ e.kind ≠ EKind.player)) := by
  obtain ⟨i, k, pos, vel, sz, hp⟩ := e
  cases k
  case player =>
    cases hf : (playerUpdate sqrtFn ctrl dt acc.ptimer
        ⟨i, EKind.player, pos, vel, sz, hp⟩).2.2
    case none =>
      simp only [updateEntity, hf]
      refine ⟨by rw [playerUpdate_fst_timer]; rfl, le_refl _, fun s hs => Or.inl hs,
        fun j hj => Or.inl hj⟩
    case some ppos =>
      simp only [updateEntity, hf]
      refine ⟨by rw [playerUpdate_fst_timer]; rfl, Nat.le_succ _, ?_, fun j hj => Or.inl hj⟩
      intro s hs
      rcases List.mem_append.mp hs with h | h
      · exact Or.inl h
      · rw [List.mem_singleton] at h
        subst h
        exact Or.inr ⟨le_refl _, rfl⟩
  case enemy =>
    simp only [updateEntity]
    refine ⟨rfl, le_refl _, fun s hs => Or.inl hs, ?_⟩
    intro j hj
    by_cases hr : (enemyUpdate dt ⟨i, EKind.enemy, pos, vel, sz, hp⟩).2 = true
    · rw [if_pos hr] at hj
      rcases List.mem_append.mp hj with h | h
      · exact Or.inl h
      · rw [List.mem_singleton] at h
        exact Or.inr ⟨h, fun hc => by cases hc⟩
    · rw [if_neg hr] at hj
      exact Or.inl hj
  case projectile =>
    simp only [updateEntity]
    refine ⟨rfl, le_refl _, fun s hs => Or.inl hs, ?_⟩
    intro j hj
    by_cases hr : (projectileUpdate ⟨i, EKind.projectile, pos, vel, sz, hp⟩).2 = true
    · rw [if_pos hr] at hj
      rcases List.mem_append.mp hj with h | h
      · exact Or.inl h
      · rw [List.mem_singleton] at h
        exact Or.inr ⟨h, fun hc => by cases hc⟩
    · rw [if_neg hr] at hj
      exact Or.inl hj

lemma moveFold_spec (sqrtFn : α → α) (ctrl : Controller) (dt : α)
    (l : List (Entity α)) (acc : MoveAcc α) :
    (l.foldl (updateEntity sqrtFn ctrl dt) acc).done
        = acc.done ++ l.map (entityStep sqrtFn ctrl dt)
    ∧ acc.rid ≤ (l.foldl (updateEntity sqrtFn ctrl dt) acc).rid
    ∧ (∀ s ∈ (l.foldl (updateEntity sqrtFn ctrl dt) acc).spawned,
        s ∈ acc.spawned ∨ (acc.rid ≤ s.id ∧ s.kind = EKind.projectile))
    ∧ (∀ i ∈ (l.foldl (updateEntity sqrtFn ctrl dt) acc).queued,
        i ∈ acc.queued ∨ ∃ e ∈ l, i = e.id ∧ e.kind ≠ EKind.player) := by
  induction l generalizing acc with
  | nil =>
      refine ⟨by simp, le_refl _, fun s hs => Or.inl hs, fun i hi => Or.inl hi⟩
  | cons a t ih =>
      simp only [List.foldl_cons]
      obtain ⟨hd1, hr1, hs1, hq1⟩ := updateEntity_spec sqrtFn ctrl dt acc a
      obtain ⟨hd2, hr2, hs2, hq2⟩ := ih (updateEntity sqrtFn ctrl dt acc a)
      refine ⟨?_, le_trans hr1 hr2, ?_, ?_⟩
      · rw [hd2, hd1, List.map_cons, List.append_assoc, List.singleton_append]
      · intro s hs
        rcases hs2 s hs with h | ⟨hle, hkind⟩
        · rcases hs1 s h with h2 | ⟨hle2, hkind2⟩
          · exact Or.inl h2
          · exact Or.inr ⟨hle2, hkind2⟩
        · exact Or.inr ⟨le_trans hr1 hle, hkind⟩
      · intro i hi
        rcases hq2 i hi with h | ⟨e, he, hid, hkind⟩
        · rcases hq1 i h with h2 | ⟨hid2, hkind2⟩
          · exact Or.inl h2
          · exact Or.inr ⟨a, List.mem_cons_self a t, hid2, hkind2⟩
        · exact Or.inr ⟨e, List.mem_cons_of_mem a he, hid, hkind⟩

lemma moveStage_spec (sqrtFn : α → α) (ctrl : Controller) (dt : α) (w : World α) :
    (∃ sp : List (Entity α),
      (moveStage sqrtFn ctrl dt w).entities
          = w.entities.map (entityStep sqrtFn ctrl dt) ++ sp
      ∧ ∀ s ∈ sp, w.running_id ≤ s.id ∧ s.kind = EKind.projectile)
    ∧ w.running_id ≤ (moveStage sqrtFn ctrl dt w).running_id
    ∧ (∀ i ∈ (moveStage sqrtFn ctrl dt w).queued,
        i ∈ w.queued ∨ ∃ e ∈ w.entities, i = e.id ∧ e.kind ≠ EKind.player) := by
  obtain ⟨hd, hr, hs, hq⟩ := moveFold_spec sqrtFn ctrl dt w.entities
    ⟨[], w.queued, w.running_id, w.playerTimer, []⟩
  refine ⟨⟨(w.entities.foldl (updateEntity sqrtFn ctrl dt)
      ⟨[], w.queued, w.running_id, w.playerTimer, []⟩).spawned, ?_, ?_⟩, hr, hq⟩
  · show (w.entities.foldl (updateEntity sqrtFn ctrl dt)
        ⟨[], w.queued, w.running_id, w.playerTimer, []⟩).done ++ _ = _
    rw [hd]
    rw [List.nil_append]
  · intro s hsp
    rcases hs s hsp with h | ⟨hle, hkind⟩
    · exact absurd h (List.not_mem_nil s)
    · exact ⟨hle, hkind⟩

end MoveLemmas

section StageLemmas

variable {α : Type} [LinearOrderedField α]

lemma damageFn_id (k : ℕ) (e : Entity α) : (damageFn k e).id = e.id := by
  unfold damageFn
  split <;> rfl

lemma damageFn_kind (k : ℕ) (e : Entity α) : (damageFn k e).kind = e.kind := by
  unfold damageFn
  split <;> rfl

lemma damageFn_health_le (k : ℕ) (e : Entity α) : (damageFn k e).health ≤ e.health := by
  unfold damageFn
  by_cases h : e.id = 0
  · rw [if_pos h]
    have hk : (0 : α) ≤ 50 * (k : α) := by positivity
    show e.health - 50 * (k : α) ≤ e.health
    linarith
  · rw [if_neg h]

lemma collideStage_entities (w : World α) :
    (collideStage w).entities = damageBy (playerHitCount w.entities) w.entities :=
  collisionUpdate_es w.entities ⟨w.entities, w.hitEnemies, w.queued⟩

lemma collideStage_queued (w : World α) :
    (collideStage w).queued = w.queued ++ sweepEmitted w.entities :=
  collisionUpdate_queue w.entities ⟨w.entities, w.hitEnemies, w.queued⟩

lemma spawnStage_entities (rand dt : α) (w : World α) :
    ∀ e ∈ (spawnStage rand dt w).entities,
      e ∈ w.entities ∨ e = mkEnemy w.running_id rand := by
  intro e he
  unfold spawnStage at he
  split at he
  · exact Or.inl he
  · dsimp only at he
    split at he
    · rcases List.mem_append.mp he with h | h
      · exact Or.inl h
      · rw [List.mem_singleton] at h
        exact Or.inr h
    · exact Or.inl he

lemma spawnStage_mem_mono (rand dt : α) (w : World α) :
    ∀ e ∈ w.entities, e ∈ (spawnStage rand dt w).entities := by
  intro e he
  unfold spawnStage
  split
  · exact he
  · dsimp only
    split
    · exact List.mem_append_left _ he
    · exact he

lemma spawnStage_queued (rand dt : α) (w : World α) :
    (spawnStage rand dt w).queued = w.queued := by
  unfold spawnStage
  split
  · rfl
  · dsimp only
    split
    · rfl
    · rfl

lemma spawnStage_rid (rand dt : α) (w : World α) :
    w.running_id ≤ (spawnStage rand dt w).running_id := by
  unfold spawnStage
  split
  · exact le_refl _
  · dsimp only
    split
    · exact Nat.le_succ _
    · exact le_refl _

lemma spawnStage_none (rand dt : α) (w : World α) (h : w.spawner = none) :
    spawnStage rand dt w = w := by
  unfold spawnStage
  rw [h]

lemma restartStage_of_false (ctrl : Controller) (w : World α)
    (h : ctrl.action_1 = false) : restartStage ctrl w = w := by
  unfold restartStage
  rw [if_neg]
  intro hc
  rw [h] at hc
  exact Bool.false_ne_true hc.2

lemma restartStage_cases (ctrl : Controller) (w : World α) :
    restartStage ctrl w = start w ∨ restartStage ctrl w = w := by
  unfold restartStage
  split
  · exact Or.inl rfl
  · exact Or.inr rfl

lemma timeStage_entities (dt : α) (w : World α) :
    (timeStage dt w).entities = w.entities := by
  unfold timeStage
  split <;> rfl

lemma timeStage_fix (dt : α) (w : World α) (h : isDead0 w.entities = false) :
    timeStage dt w = { w with timeElasped := w.timeElasped + dt } := by
  unfold timeStage
  rw [if_neg]
  rw [h]
  exact Bool.false_ne_true

lemma isDead0_playerInit : isDead0 ([playerInit] : List (Entity α)) = false := by
  unfold isDead0 playerInit
  rw [List.find?_cons_of_pos _ (by simp)]
  simp only [decide_eq_false_iff_not, not_le]
  norm_num

/-- The registry after the move, collide, flush and spawn phases of one
update() call, before the restart check. -/
def preRestart (sqrtFn : α → α) (ctrl : Controller) (rand dt : α) (w : World α) : World α :=
  spawnStage rand dt (flushStage (collideStage (moveStage sqrtFn ctrl dt w)))

lemma update_eq (sqrtFn : α → α) (ctrl : Controller) (rand dt : α) (w : World α)
    [FloorRing α] :
    update sqrtFn ctrl rand dt w
      = scoreStage (timeStage dt (restartStage ctrl (preRestart sqrtFn ctrl rand dt w))) := rfl

lemma preRestart_health0 (sqrtFn : α → α) (ctrl : Controller) (rand dt : α)
    (w : World α) (hp0 : 0 < w.running_id) :
    ∀ e1 ∈ (preRestart sqrtFn ctrl rand dt w).entities, e1.id = 0 →
      ∃ e0 ∈ w.entities, e0.id = 0 ∧ e1.health ≤ e0.health := by
  intro e1 he1 hid
  rcases spawnStage_entities rand dt _ e1 he1 with he1f | rfl
  · have he2 : e1 ∈ (collideStage (moveStage sqrtFn ctrl dt w)).entities :=
      (List.mem_filter.mp he1f).1
    rw [collideStage_entities] at he2
    unfold damageBy at he2
    obtain ⟨em, hem, hmap⟩ := List.mem_map.mp he2
    have hemid : em.id = 0 := by rw [← damageFn_id _ em, hmap, hid]
    have hemle : e1.health ≤ em.health := by
      rw [← hmap]
      exact damageFn_health_le _ em
    obtain ⟨⟨sp, hsp, hspids⟩, hr, _⟩ := moveStage_spec sqrtFn ctrl dt w
    rw [hsp] at hem
    rcases List.mem_append.mp hem with hmm | hms
    · obtain ⟨e0, he0, hstep⟩ := List.mem_map.mp hmm
      have ha := entityStep_aux sqrtFn ctrl dt e0
      refine ⟨e0, he0, ?_, ?_⟩
      · rw [← ha.1, hstep, hemid]
      · rw [← hstep] at hemle
        exact le_trans hemle (le_of_eq ha.2.2)
    · obtain ⟨hle, _⟩ := hspids em hms
      omega
  · exfalso
    have : (mkEnemy (flushStage (collideStage (moveStage sqrtFn ctrl dt w))).running_id
        rand : Entity α).id
        = (flushStage (collideStage (moveStage sqrtFn ctrl dt w))).running_id := rfl
    have hrid : w.running_id ≤ (moveStage sqrtFn ctrl dt w).running_id :=
      (moveStage_spec sqrtFn ctrl dt w).2.1
    have hid2 : (flushStage (collideStage (moveStage sqrtFn ctrl dt w))).running_id
        = (moveStage sqrtFn ctrl dt w).running_id := rfl
    rw [this, hid2] at hid
    omega

lemma step_queue_zero (sqrtFn : α → α) (ctrl : Controller) (dt : α) (w : World α)
    (hq : w.queued = [])
    (hk : ∀ e ∈ w.entities, e.id = 0 → e.kind = EKind.player) :
    0 ∉ (collideStage (moveStage sqrtFn ctrl dt w)).queued := by
  intro h0
  rw [collideStage_queued] at h0
  rcases List.mem_append.mp h0 with h | h
  · rcases (moveStage_spec sqrtFn ctrl dt w).2.2 0 h with h2 | ⟨e, he, hid, hkind⟩
    · rw [hq] at h2
      exact absurd h2 (List.not_mem_nil 0)
    · exact hkind (hk e he hid.symm)
  · exact zero_not_mem_sweepEmitted _ h

lemma preRestart_presence (sqrtFn : α → α) (ctrl : Controller) (rand dt : α)
    (w : World α) (hq : w.queued = [])
    (hk : ∀ e ∈ w.entities, e.id = 0 → e.kind = EKind.player) :
    ∀ e0 ∈ w.entities, e0.id = 0 →
      ∃ e1 ∈ (preRestart sqrtFn ctrl rand dt w).entities, e1.id = 0 := by
  intro e0 he0 hid
  obtain ⟨⟨sp, hsp, _⟩, _, _⟩ := moveStage_spec sqrtFn ctrl dt w
  have hm1 : entityStep sqrtFn ctrl dt e0 ∈ (moveStage sqrtFn ctrl dt w).entities := by
    rw [hsp]
    exact List.mem_append_left _ (List.mem_map_of_mem _ he0)
  set K := playerHitCount (moveStage sqrtFn ctrl dt w).entities with hK
  have hm2 : damageFn K (entityStep sqrtFn ctrl dt e0)
      ∈ (collideStage (moveStage sqrtFn ctrl dt w)).entities := by
    rw [collideStage_entities]
    exact List.mem_map_of_mem _ hm1
  have hdid : (damageFn K (entityStep sqrtFn ctrl dt e0)).id = 0 := by
    rw [damageFn_id, (entityStep_aux sqrtFn ctrl dt e0).1, hid]
  have hm3 : damageFn K (entityStep sqrtFn ctrl dt e0)
      ∈ (flushStage (collideStage (moveStage sqrtFn ctrl dt w))).entities := by
    show _ ∈ List.filter _ _
    rw [List.mem_filter]
    refine ⟨hm2, ?_⟩
    rw [decide_eq_true_eq, hdid]
    exact step_queue_zero sqrtFn ctrl dt w hq hk
  exact ⟨damageFn K (entityStep sqrtFn ctrl dt e0),
    spawnStage_mem_mono rand dt _ _ hm3, hdid⟩

lemma preRestart_dead (sqrtFn : α → α) (ctrl : Controller) (rand dt : α)
    (w : World α) (hq : w.queued = []) (hp0 : 0 < w.running_id)
    (hk : ∀ e ∈ w.entities, e.id = 0 → e.kind = EKind.player)
    (h0 : ∀ e ∈ w.entities, e.id = 0 → e.health ≤ 0)
    (hex : ∃ e ∈ w.entities, e.id = 0) :
    isDead0 (preRestart sqrtFn ctrl rand dt w).entities = true := by
  obtain ⟨e0, he0, hid0⟩ := hex
  obtain ⟨e1, he1, hid1⟩ := preRestart_presence sqrtFn ctrl rand dt w hq hk e0 he0 hid0
  have hsome : ((preRestart sqrtFn ctrl rand dt w).entities.find?
      fun e => decide (e.id = 0)).isSome := by
    rw [List.find?_isSome]
    exact ⟨e1, he1, by rw [hid1]; exact decide_eq_true rfl⟩
  obtain ⟨p, hp⟩ := Option.isSome_iff_exists.mp hsome
  have hpmem : p ∈ (preRestart sqrtFn ctrl rand dt w).entities :=
    List.mem_of_find?_eq_some hp
  have hpid : p.id = 0 := by
    have := List.find?_some hp
    exact of_decide_eq_true this
  obtain ⟨q0, hq0, hq0id, hle⟩ :=
    preRestart_health0 sqrtFn ctrl rand dt w hp0 p hpmem hpid
  have hdead : p.health ≤ 0 := le_trans hle (h0 q0 hq0 hq0id)
  unfold isDead0
  rw [hp]
  exact decide_eq_true hdead

end StageLemmas

section ClaimsTwo

variable {α : Type} [LinearOrderedField α]

lemma clip_bounds (hi v : α) (h : 0 ≤ hi) : 0 ≤ clip hi v ∧ clip hi v ≤ hi := by
  unfold clip
  exact ⟨le_min (le_max_left 0 v) h, min_le_right _ _⟩

lemma postStage_entities [FloorRing α] (dt : α) (z : World α) :
    (scoreStage (timeStage dt z)).entities = z.entities := by
  show (timeStage dt z).entities = z.entities
  exact timeStage_entities dt z

lemma postStage_tot [FloorRing α] (dt : α) (z : World α) :
    (scoreStage (timeStage dt z)).totEnemies = z.totEnemies := by
  show (timeStage dt z).totEnemies = z.totEnemies
  unfold timeStage
  split <;> rfl

/-- C2: per colliding ordered pair with entity1 the id-0 player, resolution
queues exactly entity2 and subtracts exactly 50 from the id-0 health; the
sweep never queues id 0; over a whole update step (without restart) every
id-0 entity's health never increases; and a dead player stays dead through
the step. -/
theorem c2_player_rules [FloorRing α] (sqrtFn : α → α) (ctrl : Controller)
    (rand dt : α) (w : World α) (snap : List (Entity α)) (st : SweepState α)
    (p1 p2 : Entity α)
    (hq : w.queued = []) (hp0 : 0 < w.running_id)
    (hk : ∀ e ∈ w.entities, e.id = 0 → e.kind = EKind.player)
    (hact : ctrl.action_1 = false) :
    (checkCollision p1 p2 = true → p1.id = 0 → p1.id ≠ p2.id →
      (resolvePair p1 p2 st).queue = st.queue ++ [p2.id]
      ∧ (resolvePair p1 p2 st).es
          = st.es.map fun e => if e.id = 0 then { e with health := e.health - 50 } else e)
    ∧ (0 ∈ (collisionUpdate snap st).queue → 0 ∈ st.queue)
    ∧ (∀ e1 ∈ (update sqrtFn ctrl rand dt w).entities, e1.id = 0 →
        ∃ e0 ∈ w.entities, e0.id = 0 ∧ e1.health ≤ e0.health)
    ∧ ((∀ e ∈ w.entities, e.id = 0 → e.health ≤ 0) → (∃ e ∈ w.entities, e.id = 0) →
        isDead0 (update sqrtFn ctrl rand dt w).entities = true) := by
  have hent : (update sqrtFn ctrl rand dt w).entities
      = (preRestart sqrtFn ctrl rand dt w).entities := by
    rw [update_eq, postStage_entities, restartStage_of_false ctrl _ hact]
  refine ⟨?_, ?_, ?_, ?_⟩
  · intro hc h0 hne
    unfold resolvePair
    rw [if_pos ⟨hc, hne⟩, if_pos h0]
    exact ⟨rfl, rfl⟩
  · intro h0q
    rw [collisionUpdate_queue] at h0q
    rcases List.mem_append.mp h0q with h | h
    · exact h
    · exact absurd h (zero_not_mem_sweepEmitted snap)
  · intro e1 he1 hid
    rw [hent] at he1
    exact preRestart_health0 sqrtFn ctrl rand dt w hp0 e1 he1 hid
  · intro h0 hex
    rw [hent]
    exact preRestart_dead sqrtFn ctrl rand dt w hq hp0 hk h0 hex

/-- The stubbed host square root used when evaluating the rational model
at inputs whose controller never takes a diagonal branch. -/
def sqQ : ℚ → ℚ := fun x => x

/-- A controller with no movement and action_1 released. -/
def ctrlF : Controller := ⟨0, 0, false⟩

/-- A controller with no movement and action_1 pressed. -/
def ctrlA : Controller := ⟨0, 0, true⟩

/-- Concrete player at (150, 400) with 50 health. -/
def plC2 : Entity ℚ := ⟨0, EKind.player, ⟨150, 400⟩, ⟨0, 0⟩, ⟨10, 10⟩, 50⟩

/-- Concrete enemy 5 above the player, about to collide after one step. -/
def enC2 : Entity ℚ := ⟨1, EKind.enemy, ⟨150, 395⟩, ⟨0, 0⟩, ⟨10, 10⟩, 100⟩

/-- Concrete world in which the player dies to the enemy this step while the
spawner timer is about to fire. -/
def wC2 : World ℚ := ⟨[plC2, enC2], [], 2, 0, 5, 1, 5, 0, some (69/100)⟩

unseal Rat.add Rat.mul Rat.sub Rat.inv in
/-- C2 witness at the concrete colliding player/enemy pair. -/
theorem c2_witness :
    ((resolvePair plC2 enC2 (⟨[plC2, enC2], 0, []⟩ : SweepState ℚ)).queue = [] ++ [enC2.id]
      ∧ (resolvePair plC2 enC2 (⟨[plC2, enC2], 0, []⟩ : SweepState ℚ)).es
          = [plC2, enC2].map fun e => if e.id = 0 then { e with health := e.health - 50 } else e)
    ∧ (∀ e1 ∈ (update sqQ ctrlF (1/2) (1/60) wC2).entities, e1.id = 0 →
        ∃ e0 ∈ wC2.entities, e0.id = 0 ∧ e1.health ≤ e0.health) :=
  ⟨(c2_player_rules sqQ ctrlF (1/2) (1/60) wC2 [plC2, enC2] ⟨[plC2, enC2], 0, []⟩ plC2 enC2
      rfl (by decide) (by decide) rfl).1 (by decide) rfl (by decide),
   (c2_player_rules sqQ ctrlF (1/2) (1/60) wC2 [plC2, enC2] ⟨[plC2, enC2], 0, []⟩ plC2 enC2
      rfl (by decide) (by decide) rfl).2.2.1⟩

/-- C6: after every Player.update, whatever the controller, timer, prior
position and velocity, the player's position lies in [0,300] x [0,500]. -/
theorem c6_player_in_bounds (sqrtFn : α → α) (ctrl : Controller) (dt timer : α)
    (e : Entity α) :
    0 ≤ (playerUpdate sqrtFn ctrl dt timer e).1.position.x
    ∧ (playerUpdate sqrtFn ctrl dt timer e).1.position.x ≤ 300
    ∧ 0 ≤ (playerUpdate sqrtFn ctrl dt timer e).1.position.y
    ∧ (playerUpdate sqrtFn ctrl dt timer e).1.position.y ≤ 500 := by
  have hx : (playerUpdate sqrtFn ctrl dt timer e).1.position.x
      = clip 300 ((playerMove sqrtFn ctrl.move_x ctrl.move_y e).position.x
          + dt * (playerMove sqrtFn ctrl.move_x ctrl.move_y e).velocity.x) := rfl
  have hy : (playerUpdate sqrtFn ctrl dt timer e).1.position.y
      = clip 500 ((playerMove sqrtFn ctrl.move_x ctrl.move_y e).position.y
          + dt * (playerMove sqrtFn ctrl.move_x ctrl.move_y e).velocity.y) := rfl
  rw [hx, hy]
  exact ⟨(clip_bounds 300 _ (by norm_num)).1, (clip_bounds 300 _ (by norm_num)).2,
    (clip_bounds 500 _ (by norm_num)).1, (clip_bounds 500 _ (by norm_num)).2⟩

/-- C7 (amended): with the player dead and action_1 held, one update step
reinitializes the session: fresh registry holding only the new id-0 player,
empty queue, id counter at 1, hit and spawn counters zeroed, spawner and fire
timer reset; the elapsed-alive counter is reset and then immediately accrues
this step's dt, the score variable is not touched by start() itself but the
end-of-step recomputation makes it floor(dt) = 0. -/
theorem c7_restart [FloorRing α] (sqrtFn : α → α) (ctrl : Controller) (rand dt : α)
    (w v : World α)
    (hq : w.queued = []) (hp0 : 0 < w.running_id)
    (hk : ∀ e ∈ w.entities, e.id = 0 → e.kind = EKind.player)
    (h0 : ∀ e ∈ w.entities, e.id = 0 → e.health ≤ 0)
    (hex : ∃ e ∈ w.entities, e.id = 0)
    (hact : ctrl.action_1 = true) (hdt : dt = 1/60) :
    (update sqrtFn ctrl rand dt w).entities = [playerInit]
    ∧ (playerInit : Entity α).id = 0
    ∧ (update sqrtFn ctrl rand dt w).queued = []
    ∧ (update sqrtFn ctrl rand dt w).running_id = 1
    ∧ (update sqrtFn ctrl rand dt w).hitEnemies = 0
    ∧ (update sqrtFn ctrl rand dt w).totEnemies = 0
    ∧ (update sqrtFn ctrl rand dt w).timeElasped = dt
    ∧ (update sqrtFn ctrl rand dt w).score = 0
    ∧ (update sqrtFn ctrl rand dt w).spawner = some 0
    ∧ (update sqrtFn ctrl rand dt w).playerTimer = 0
    ∧ (start v).score = v.score := by
  have hdead := preRestart_dead sqrtFn ctrl rand dt w hq hp0 hk h0 hex
  have hrs : restartStage ctrl (preRestart sqrtFn ctrl rand dt w)
      = start (preRestart sqrtFn ctrl rand dt w) := by
    unfold restartStage
    rw [if_pos ⟨hdead, hact⟩]
  have hts : timeStage dt (start (preRestart sqrtFn ctrl rand dt w))
      = { start (preRestart sqrtFn ctrl rand dt w) with
          timeElasped := (start (preRestart sqrtFn ctrl rand dt w)).timeElasped + dt } :=
    timeStage_fix dt _ isDead0_playerInit
  have hu : update sqrtFn ctrl rand dt w
      = scoreStage { start (preRestart sqrtFn ctrl rand dt w) with
          timeElasped := (start (preRestart sqrtFn ctrl rand dt w)).timeElasped + dt } := by
    rw [update_eq, hrs, hts]
  rw [hu]
  refine ⟨rfl, rfl, rfl, rfl, rfl, rfl, ?_, ?_, rfl, rfl, rfl⟩
  · show (0 : α) + dt = dt
    exact zero_add dt
  · show (⌊(30 : α) * (((0 : ℕ) : α) / 2) + ((0 : α) + dt)⌋ : ℤ) = 0
    have hv : (30 : α) * (((0 : ℕ) : α) / 2) + ((0 : α) + dt) = dt := by
      push_cast
      ring
    rw [hv, hdt, Int.floor_eq_zero_iff]
    exact Set.mem_Ico.mpr ⟨by norm_num, by norm_num⟩

/-- Concrete dead player. -/
def plDead : Entity ℚ := ⟨0, EKind.player, ⟨150, 400⟩, ⟨0, 0⟩, ⟨10, 10⟩, 0⟩

/-- Concrete game-over world with nonzero counters and score 70, spawner
already disabled by the draw of the dying step. -/
def wDead : World ℚ := ⟨[plDead], [], 1, 4, 107/10, 9, 70, 0, none⟩

unseal Rat.add Rat.mul Rat.sub Rat.inv in
/-- C7 counterexample: start() does not reset the score variable (it stays
70), and in the restart step the elapsed-alive counter ends at dt, not 0 -
refuting "all session counters, including the derived score, are reset to
zero" as an account of the reinitialization. -/
theorem c7_counterexample :
    (start wDead).score = 70
    ∧ (update sqQ ctrlA (1/2) (1/60) wDead).timeElasped ≠ 0 := by decide

unseal Rat.add Rat.mul Rat.sub Rat.inv in
/-- C7 witness: the amended restart facts at the concrete game-over world. -/
theorem c7_witness :
    (update sqQ ctrlA (1/2) (1/60) wDead).entities = [playerInit]
    ∧ (update sqQ ctrlA (1/2) (1/60) wDead).running_id = 1
    ∧ (update sqQ ctrlA (1/2) (1/60) wDead).hitEnemies = 0
    ∧ (update sqQ ctrlA (1/2) (1/60) wDead).totEnemies = 0
    ∧ (update sqQ ctrlA (1/2) (1/60) wDead).score = 0 := by
  have h := c7_restart sqQ ctrlA (1/2) (1/60) wDead wDead rfl (by decide) (by decide)
    (by decide) ⟨plDead, by decide, rfl⟩ rfl rfl
  exact ⟨h.1, h.2.2.2.1, h.2.2.2.2.1, h.2.2.2.2.2.1, h.2.2.2.2.2.2.2.1⟩

/-- C9 (amended): draw disables the spawner once the player is dead; with the
spawner disabled an update step spawns nothing: the spawner stage is the
identity, the total-enemies counter cannot grow (restart resets it to 0), and
every enemy in the post-step registry descends from an enemy already present
before the step. -/
theorem c9_spawner_dead [FloorRing α] (sqrtFn : α → α) (ctrl : Controller)
    (rand dt : α) (w : World α) :
    (isDead0 w.entities = true → (drawEffect w).spawner = none)
    ∧ (w.spawner = none → spawnStage rand dt w = w)
    ∧ (w.spawner = none → (update sqrtFn ctrl rand dt w).totEnemies ≤ w.totEnemies)
    ∧ (w.spawner = none → ∀ e1 ∈ (update sqrtFn ctrl rand dt w).entities,
        e1.kind = EKind.enemy →
          ∃ e0 ∈ w.entities, e0.id = e1.id ∧ e0.kind = EKind.enemy) := by
  refine ⟨?_, fun h => spawnStage_none rand dt w h, ?_, ?_⟩
  · intro h
    unfold drawEffect
    rw [if_pos h]
  · intro hsp
    have hpre : preRestart sqrtFn ctrl rand dt w
        = flushStage (collideStage (moveStage sqrtFn ctrl dt w)) :=
      spawnStage_none rand dt _ hsp
    rw [update_eq]
    rcases restartStage_cases ctrl (preRestart sqrtFn ctrl rand dt w) with hr | hr <;>
      rw [hr, postStage_tot]
    · exact Nat.zero_le _
    · rw [hpre]
      exact le_refl _
  · intro hsp e1 he1 hkind
    rw [update_eq, postStage_entities] at he1
    rcases restartStage_cases ctrl (preRestart sqrtFn ctrl rand dt w) with hr | hr <;>
      rw [hr] at he1
    · have he1b : e1 ∈ ([playerInit] : List (Entity α)) := he1
      rw [List.mem_singleton] at he1b
      rw [he1b] at hkind
      exact EKind.noConfusion hkind
    · have hpre : preRestart sqrtFn ctrl rand dt w
          = flushStage (collideStage (moveStage sqrtFn ctrl dt w)) :=
        spawnStage_none rand dt _ hsp
      rw [hpre] at he1
      have he2 : e1 ∈ (collideStage (moveStage sqrtFn ctrl dt w)).entities :=
        (List.mem_filter.mp he1).1
      rw [collideStage_entities] at he2
      obtain ⟨em, hem, hmap⟩ := List.mem_map.mp he2
      have hemid : em.id = e1.id := by rw [← hmap, damageFn_id]
      have hemkind : em.kind = EKind.enemy := by rw [← hkind, ← hmap, damageFn_kind]
      obtain ⟨⟨sp, hsp2, hspids⟩, _, _⟩ := moveStage_spec sqrtFn ctrl dt w
      rw [hsp2] at hem
      rcases List.mem_append.mp hem with hmm | hms
      · obtain ⟨e0, he0, hstep⟩ := List.mem_map.mp hmm
        have ha := entityStep_aux sqrtFn ctrl dt e0
        exact ⟨e0, he0, by rw [← ha.1, hstep, hemid], by rw [← ha.2.1, hstep, hemkind]⟩
      · obtain ⟨_, hk2⟩ := hspids em hms
        rw [hemkind] at hk2
        exact absurd hk2 (by decide)

unseal Rat.add Rat.mul Rat.sub Rat.inv in
/-- C9 counterexample: in the concrete step in which the collision kills the
player, the spawner (not yet disabled) still fires while isDead() already
holds: the total-enemies counter is incremented and a brand-new enemy is in
the registry. -/
theorem c9_counterexample :
    isDead0 (flushStage (collideStage (moveStage sqQ ctrlF (1/60) wC2))).entities = true
    ∧ (spawnStage (1/2) (1/60)
          (flushStage (collideStage (moveStage sqQ ctrlF (1/60) wC2)))).totEnemies
        = (flushStage (collideStage (moveStage sqQ ctrlF (1/60) wC2))).totEnemies + 1
    ∧ ∃ e ∈ (spawnStage (1/2) (1/60)
          (flushStage (collideStage (moveStage sqQ ctrlF (1/60) wC2)))).entities,
        e.kind = EKind.enemy
        ∧ ∀ e2 ∈ (flushStage (collideStage (moveStage sqQ ctrlF (1/60) wC2))).entities,
            e2.id ≠ e.id := by decide

unseal Rat.add Rat.mul Rat.sub Rat.inv in
/-- C9 witness: with the spawner disabled, the spawner stage is the identity
and an update step does not increase the total-enemies counter. -/
theorem c9_witness :
    spawnStage (1/2 : ℚ) (1/60) wDead = wDead
    ∧ (update sqQ ctrlF (1/2) (1/60) wDead).totEnemies ≤ wDead.totEnemies :=
  ⟨(c9_spawner_dead sqQ ctrlF (1/2) (1/60) wDead).2.1 rfl,
   (c9_spawner_dead sqQ ctrlF (1/2) (1/60) wDead).2.2.1 rfl⟩

end ClaimsTwo

section ClaimFive

lemma sqrt98_eq : Real.sqrt ((7 : ℝ) ^ 2 + 7 ^ 2) = 7 * Real.sqrt 2 := by
  have h : ((7 : ℝ) ^ 2 + 7 ^ 2) = 7 ^ 2 * 2 := by norm_num
  rw [h, Real.sqrt_mul (by positivity), Real.sqrt_sq (by norm_num)]

/-- C5: with the host square root, the movement cascade resolves the claimed
five cases - move_y = 0 gives x displacement speed times move_x (the 0/0 case
is its no-op instance), move_x = 0 gives y displacement speed times move_y,
each diagonal sign pair displaces each axis by speed times sqrt 2 over 2 -
the velocity is zeroed again after use, and the base integration of the rest
of Player.update therefore adds nothing: the final position is just the
clipped movement result. -/
theorem c5_player_cases (mx my : ℤ) (e : Entity ℝ) (hv : e.velocity = ⟨0, 0⟩) :
    (my = 0 → (playerMove Real.sqrt mx my e).position
        = ⟨e.position.x + 7 * (mx : ℝ), e.position.y⟩)
    ∧ (mx = 0 → (playerMove Real.sqrt mx my e).position
        = ⟨e.position.x, e.position.y + 7 * (my : ℝ)⟩)
    ∧ ((mx = 1 ∨ mx = -1) → (my = 1 ∨ my = -1) →
        (playerMove Real.sqrt mx my e).position
          = ⟨e.position.x + 7 * Real.sqrt 2 / 2 * (mx : ℝ),
             e.position.y + 7 * Real.sqrt 2 / 2 * (my : ℝ)⟩)
    ∧ (playerMove Real.sqrt mx my e).velocity = ⟨0, 0⟩
    ∧ (∀ (a : Bool) (dt timer : ℝ),
        (playerUpdate Real.sqrt ⟨mx, my, a⟩ dt timer e).1.position
          = ⟨clip 300 (playerMove Real.sqrt mx my e).position.x,
             clip 500 (playerMove Real.sqrt mx my e).position.y⟩) := by
  have hvel : (playerMove Real.sqrt mx my e).velocity = ⟨0, 0⟩ := by
    unfold playerMove diagMove
    split_ifs <;> simp [hv]
  refine ⟨?_, ?_, ?_, hvel, ?_⟩
  · intro h
    unfold playerMove
    rw [if_pos h]
  · intro h
    subst h
    by_cases hmy : my = 0
    · subst hmy
      unfold playerMove
      rw [if_pos rfl]
      dsimp only
      rw [Vec2.mk.injEq]
      constructor <;> (push_cast; ring)
    · unfold playerMove
      rw [if_neg hmy, if_pos rfl]
  · intro hx hy
    rcases hx with rfl | rfl <;> rcases hy with rfl | rfl
    · unfold playerMove diagMove
      rw [if_neg (by decide), if_neg (by decide), if_pos (by decide)]
      dsimp only
      rw [Vec2.mk.injEq]
      constructor <;> (rw [sqrt98_eq]; push_cast; ring)
    · unfold playerMove diagMove
      rw [if_neg (by decide), if_neg (by decide), if_neg (by decide), if_pos (by decide)]
      dsimp only
      rw [Vec2.mk.injEq]
      constructor <;> (rw [sqrt98_eq]; push_cast; ring)
    · unfold playerMove diagMove
      rw [if_neg (by decide), if_neg (by decide), if_neg (by decide), if_neg (by decide),
        if_pos (by decide)]
      dsimp only
      rw [Vec2.mk.injEq]
      constructor <;> (rw [sqrt98_eq]; push_cast; ring)
    · unfold playerMove diagMove
      rw [if_neg (by decide), if_neg (by decide), if_neg (by decide), if_neg (by decide),
        if_neg (by decide), if_pos (by decide)]
      dsimp only
      rw [Vec2.mk.injEq]
      constructor <;> (rw [sqrt98_eq]; push_cast; ring)
  · intro a dt timer
    have hx : (playerUpdate Real.sqrt ⟨mx, my, a⟩ dt timer e).1.position
        = ⟨clip 300 ((playerMove Real.sqrt mx my e).position.x
              + dt * (playerMove Real.sqrt mx my e).velocity.x),
           clip 500 ((playerMove Real.sqrt mx my e).position.y
              + dt * (playerMove Real.sqrt mx my e).velocity.y)⟩ := rfl
    rw [hx, hvel]
    dsimp only
    rw [mul_zero, add_zero, add_zero]

/-- C5 witness: the south-east diagonal from (100, 200) moves each axis by
7 times the square root of 2 over 2, and the velocity ends zeroed. -/
theorem c5_witness :
    (playerMove Real.sqrt 1 1
        (⟨0, EKind.player, ⟨100, 200⟩, ⟨0, 0⟩, ⟨10, 10⟩, 100⟩ : Entity ℝ)).position
      = ⟨100 + 7 * Real.sqrt 2 / 2 * ((1 : ℤ) : ℝ),
         200 + 7 * Real.sqrt 2 / 2 * ((1 : ℤ) : ℝ)⟩
    ∧ (playerMove Real.sqrt 1 1
        (⟨0, EKind.player, ⟨100, 200⟩, ⟨0, 0⟩, ⟨10, 10⟩, 100⟩ : Entity ℝ)).velocity
      = ⟨0, 0⟩ := by
  have h := c5_player_cases 1 1
    (⟨0, EKind.player, ⟨100, 200⟩, ⟨0, 0⟩, ⟨10, 10⟩, 100⟩ : Entity ℝ) rfl
  exact ⟨h.2.2.1 (Or.inl rfl) (Or.inl rfl), h.2.2.2.1⟩

end ClaimFive
